import Mathlib

/-!
Verification of the valuation and signal engine of the CPO monitor
(src/app.py).  The engine is embedded shallowly: prices and returns are
rationals, the fixed holdings table is a list of ticker/weight pairs in the
declaration order of the Python dict, a per-instrument returns mapping is a
function from tickers to optional rationals (none models a key missing from
the Python dict), and the per-ticker normalization of fetch_data is a pure
function on a list of optional closes.
-/

/-- Fixed holdings table of the fund (src/app.py lines 17-28, HOLDINGS):
ticker to declared weight, in the insertion order of the Python dict. -/
def HOLDINGS : List (String × ℚ) :=
  [("300502.SZ", 0.0969),
   ("301377.SZ", 0.0964),
   ("300308.SZ", 0.0958),
   ("688498.SS", 0.0950),
   ("600183.SS", 0.0941),
   ("002463.SZ", 0.0914),
   ("688195.SS", 0.0903),
   ("300476.SZ", 0.0877),
   ("688183.SS", 0.0861),
   ("601138.SS", 0.0672)]

/-- Total declared weight, as the source computes it inside
calculate_fund_sim: sum(HOLDINGS.values()) (src/app.py line 116). -/
def total_weight : ℚ := (HOLDINGS.map Prod.snd).sum

/-- Embedding of calculate_fund_sim (src/app.py lines 113-123).  The loop
accumulates change * weight over HOLDINGS.items(), where
holdings_changes.get(ticker, 0.0) substitutes 0 for a ticker missing from the
mapping, and the accumulated sum is divided by the total weight. -/
def calculate_fund_sim (holdings_changes : String → Option ℚ) : ℚ :=
  let total_weighted_change :=
    HOLDINGS.foldl (fun acc p => acc + (holdings_changes p.1).getD 0 * p.2) 0
  total_weighted_change / total_weight

/-- Embedding of the per-ticker branch of fetch_data (src/app.py lines
66-82; the NQ=F branch at lines 93-109 has the same shape).  A raw history is
a list of optional closes; dropna keeps the present ones.  With at least two
valid closes the source computes (last - prev) / prev on floats; when prev is
0 that float division yields a non-finite value (inf or nan) without raising,
modeled here as a none return, while the quote is still set to the last
close.  With fewer than two valid closes the source stores the sentinel pair
(0.0, 0.0), its explicit no-data outcome. -/
def normalizeHistory (history : List (Option ℚ)) : Option ℚ × ℚ :=
  let closes := history.filterMap id
  if 2 ≤ closes.length then
    let last_close := closes.getD (closes.length - 1) 0
    let prev_close := closes.getD (closes.length - 2) 0
    if prev_close = 0 then (none, last_close)
    else (some ((last_close - prev_close) / prev_close), last_close)
  else (some 0, 0)

/-- Latest-price outcome prescribed by the specification for the return
normalization (spec sections 3 and 4.1: latest_price is a non-negative real
or absent, and with fewer than two valid closes the price is absent).  This
definition follows the wording of the spec, for comparison with the source
embedding normalizeHistory, which stores the concrete number 0 in the
insufficient-data case rather than an absent price. -/
def spec_latest_price (history : List (Option ℚ)) : Option ℚ :=
  let closes := history.filterMap id
  if 2 ≤ closes.length then some (closes.getD (closes.length - 1) 0)
  else none

/-- Alert categories emitted by check_signals, each with the numeric payload
its message interpolates (src/app.py lines 125-157): the US-shock message
carries the signed NQ change, the arbitrage message the signed difference,
and the sentiment message only the two fixed tickers. -/
inductive Signal where
  | usShock (nq_change : ℚ)
  | arbitrage (diff : ℚ)
  | sentimentDivergence
deriving DecidableEq

/-- Embedding of check_signals (src/app.py lines 125-157).  nq_change is read
with data.get defaulting to 0.0; the two sentiment tickers are the fixed
constants t1 = 300502.SZ and t2 = 301377.SZ, read from the holdings-change
mapping with get defaulting to 0.0.  Each of the three rules appends at most
one signal, in the fixed source order. -/
def check_signals (nq_change_opt : Option ℚ)
    (holdings_change : String → Option ℚ) (fund_sim_change : ℚ) : List Signal :=
  let signals : List Signal := []
  let nq_change := nq_change_opt.getD 0
  let signals :=
    if 0.006 < |nq_change| then signals ++ [Signal.usShock nq_change] else signals
  let signals :=
    if 0.01 < nq_change - fund_sim_change then
      signals ++ [Signal.arbitrage (nq_change - fund_sim_change)]
    else signals
  let c1 := (holdings_change "300502.SZ").getD 0
  let c2 := (holdings_change "301377.SZ").getD 0
  let spread := c1 - c2
  let signals :=
    if 0.03 < |spread| then signals ++ [Signal.sentimentDivergence] else signals
  signals

/-- Recognizer for the US-shock alert category. -/
def isUsShock : Signal → Bool
  | Signal.usShock _ => true
  | _ => false

/-- Recognizer for the arbitrage alert category. -/
def isArbitrage : Signal → Bool
  | Signal.arbitrage _ => true
  | _ => false

/-- Recognizer for the sentiment-divergence alert category. -/
def isSentiment : Signal → Bool
  | Signal.sentimentDivergence => true
  | _ => false

/-- A left fold that only accumulates sums equals the sum of the mapped
list. -/
theorem foldl_add_sum (f : String × ℚ → ℚ) :
    ∀ (l : List (String × ℚ)) (a : ℚ),
      l.foldl (fun acc p => acc + f p) a = a + (l.map f).sum := by
  intro l
  induction l with
  | nil => intro a; simp
  | cons p t ih => intro a; simp [ih]; ring

/-- The accumulation loop of calculate_fund_sim computes the weighted sum of
the looked-up changes, divided by the total weight. -/
theorem calculate_fund_sim_eq (m : String → Option ℚ) :
    calculate_fund_sim m =
      (HOLDINGS.map (fun p => (m p.1).getD 0 * p.2)).sum / total_weight := by
  simp [calculate_fund_sim, foldl_add_sum (fun p => (m p.1).getD 0 * p.2)]

/-- Masking exactly the ticker t0 to a missing entry and every other lookup
to the constant r turns the weighted sum into r times the weight of the
holdings other than t0. -/
theorem mask_sum (t0 : String) (r : ℚ) :
    ∀ l : List (String × ℚ),
      (l.map (fun p =>
          ((if p.1 = t0 then (none : Option ℚ) else some r)).getD 0 * p.2)).sum
        = ((l.filter (fun p => p.1 ≠ t0)).map Prod.snd).sum * r := by
  intro l
  induction l with
  | nil => simp
  | cons p t ih =>
      by_cases h : p.1 = t0
      · simp [h, ih]
      · simp [h, ih]; ring

/-- Scaling the optional change by k scales the defaulted lookup by k. -/
theorem getD_map_mul (k : ℚ) (o : Option ℚ) :
    (o.map (fun x => k * x)).getD 0 = k * o.getD 0 := by
  cases o <;> simp

/-- Claim C1: calculate_fund_sim returns the weight-weighted sum of the
looked-up returns divided by the sum of all declared weights, a missing
ticker contributing zero to the numerator while its weight stays in the
denominator; in particular, when exactly one ticker is absent and every
other lookup returns r, the result is the weight of the holdings other than
that ticker, times r, divided by the total weight. -/
theorem claim_C1 :
    (∀ m : String → Option ℚ,
        calculate_fund_sim m =
          (HOLDINGS.map (fun p => p.2 * (m p.1).getD 0)).sum /
            (HOLDINGS.map Prod.snd).sum)
    ∧ ∀ (t0 : String) (r : ℚ),
        calculate_fund_sim (fun s => if s = t0 then none else some r) =
          ((HOLDINGS.filter (fun p => p.1 ≠ t0)).map Prod.snd).sum * r /
            (HOLDINGS.map Prod.snd).sum := by
  constructor
  · intro m
    rw [calculate_fund_sim_eq]
    unfold total_weight
    congr 2
    apply List.map_congr_left
    intro a _
    ring
  · intro t0 r
    rw [calculate_fund_sim_eq]
    unfold total_weight
    rw [← mask_sum t0 r HOLDINGS]

/-- Claim C7: calculate_fund_sim is linear in the returns: scaling every
present entry of the mapping by k scales the simulated return by k, and the
all-zero mapping simulates to exactly 0. -/
theorem claim_C7 :
    (∀ (k : ℚ) (m : String → Option ℚ),
        calculate_fund_sim (fun s => (m s).map (fun x => k * x)) =
          k * calculate_fund_sim m)
    ∧ calculate_fund_sim (fun _ => some 0) = 0 := by
  constructor
  · intro k m
    rw [calculate_fund_sim_eq, calculate_fund_sim_eq, ← mul_div_assoc]
    congr 1
    have h : HOLDINGS.map (fun p => ((m p.1).map (fun x => k * x)).getD 0 * p.2)
        = HOLDINGS.map (fun p => k * ((m p.1).getD 0 * p.2)) := by
      apply List.map_congr_left
      intro a _
      rw [getD_map_mul]
      ring
    rw [h, List.sum_map_mul_left]
  · simp [calculate_fund_sim, HOLDINGS]

/-- Claim C9: the denominator of calculate_fund_sim is the fixed total
declared weight 0.9009, a positive constant, so the division is always by a
nonzero number and the result is the exact rational quotient of the weighted
sum by that constant: no error path exists. -/
theorem claim_C9 :
    total_weight = 0.9009 ∧ 0 < total_weight ∧
      ∀ m : String → Option ℚ,
        calculate_fund_sim m * total_weight =
          (HOLDINGS.map (fun p => (m p.1).getD 0 * p.2)).sum := by
  refine ⟨by norm_num [total_weight, HOLDINGS], by norm_num [total_weight, HOLDINGS], ?_⟩
  intro m
  rw [calculate_fund_sim_eq]
  rw [div_mul_cancel₀]
  norm_num [total_weight, HOLDINGS]

/-- Claim C2: the sentiment rule uses exactly the two fixed tickers
300502.SZ and 301377.SZ, which are the two largest-weight holdings of the
configuration, and the sentiment-divergence alert is emitted precisely when
the absolute spread of their looked-up returns (missing entries counting as
zero) exceeds 0.03. -/
theorem claim_C2 :
    (("300502.SZ", (0.0969 : ℚ)) ∈ HOLDINGS
      ∧ ("301377.SZ", (0.0964 : ℚ)) ∈ HOLDINGS
      ∧ (∀ p ∈ HOLDINGS, p.2 ≤ (0.0969 : ℚ))
      ∧ (∀ p ∈ HOLDINGS, p.1 ≠ "300502.SZ" → p.2 ≤ (0.0964 : ℚ)))
    ∧ ∀ (nq : Option ℚ) (m : String → Option ℚ) (sim : ℚ),
        Signal.sentimentDivergence ∈ check_signals nq m sim ↔
          0.03 < |(m "300502.SZ").getD 0 - (m "301377.SZ").getD 0| := by
  constructor
  · refine ⟨by simp [HOLDINGS], by simp [HOLDINGS], ?_, ?_⟩
    · intro p hp
      fin_cases hp <;> norm_num
    · intro p hp hne
      fin_cases hp <;> simp_all <;> norm_num
  · intro nq m sim
    simp only [check_signals]
    split_ifs <;> simp_all

/-- Claim C2 witness: with the largest-weight ticker at return 0.04 and
every other ticker at 0, the sentiment-divergence alert fires. -/
theorem claim_C2_witness :
    Signal.sentimentDivergence ∈
      check_signals none (fun s => if s = "300502.SZ" then some 0.04 else some 0) 0 :=
  (claim_C2.2 none (fun s => if s = "300502.SZ" then some 0.04 else some 0) 0).mpr
    (by
      simp
      norm_num [lt_abs])

/-- Claim C5: an arbitrage alert is present exactly when the defaulted NQ
change minus the simulated fund change strictly exceeds 0.01, its payload is
that signed difference, the rule is asymmetric, and the two spec scenarios
hold: reference 0.008 with simulated 0.001 does not trigger it, reference
0.02 with simulated 0.005 does. -/
theorem claim_C5 :
    (∀ (nq : Option ℚ) (m : String → Option ℚ) (sim : ℚ),
        ((∃ d, Signal.arbitrage d ∈ check_signals nq m sim) ↔
            0.01 < nq.getD 0 - sim)
        ∧ ∀ d, Signal.arbitrage d ∈ check_signals nq m sim → d = nq.getD 0 - sim)
    ∧ (¬ ∃ d, Signal.arbitrage d ∈
          check_signals (some 0.008) (fun _ => some 0) 0.001)
    ∧ (∃ d, Signal.arbitrage d ∈
          check_signals (some 0.02) (fun _ => some 0) 0.005) := by
  refine ⟨?_, ?_, ?_⟩
  · intro nq m sim
    constructor
    · simp only [check_signals]
      split_ifs <;> simp_all
    · intro d
      simp only [check_signals]
      split_ifs <;> simp_all
  · norm_num [check_signals, lt_abs]
    simp
  · exact ⟨0.02 - 0.005, by norm_num [check_signals, lt_abs]⟩

/-- Claim C5 witness: applying the payload characterization at the concrete
triggering scenario, the emitted difference is the reference minus the
simulated return. -/
theorem claim_C5_witness :
    (0.015 : ℚ) = (some (0.02 : ℚ)).getD 0 - 0.005 :=
  (claim_C5.1 (some 0.02) (fun _ => some 0) 0.005).2 0.015
    (by norm_num [check_signals, lt_abs])

/-- Claim C6: the US-shock alert, carrying the signed defaulted NQ change,
is present exactly when the absolute NQ change strictly exceeds 0.006, and
every US-shock alert in the output carries that value. -/
theorem claim_C6 :
    ∀ (nq : Option ℚ) (m : String → Option ℚ) (sim : ℚ),
      (Signal.usShock (nq.getD 0) ∈ check_signals nq m sim ↔
          0.006 < |nq.getD 0|)
      ∧ ∀ x, Signal.usShock x ∈ check_signals nq m sim → x = nq.getD 0 := by
  intro nq m sim
  constructor
  · simp only [check_signals]
    split_ifs <;> simp_all
  · intro x
    simp only [check_signals]
    split_ifs <;> simp_all

/-- Claim C6 witness: an NQ change of 0.02 emits the US-shock alert with
payload 0.02. -/
theorem claim_C6_witness :
    Signal.usShock ((some (0.02 : ℚ)).getD 0) ∈
      check_signals (some 0.02) (fun _ => some 0) 0.005 :=
  ((claim_C6 (some 0.02) (fun _ => some 0) 0.005).1).mpr (by norm_num [lt_abs])

/-- Claim C8: check_signals is deterministic and depends only on the values
of its inputs: two calls with the same NQ change, the same simulated return
and pointwise-equal per-instrument mappings produce the same alert list in
the same order. -/
theorem claim_C8 :
    ∀ (nq : Option ℚ) (m m2 : String → Option ℚ) (sim : ℚ),
      (∀ t, m t = m2 t) →
        check_signals nq m sim = check_signals nq m2 sim := by
  intro nq m m2 sim h
  simp only [check_signals]
  rw [h "300502.SZ", h "301377.SZ"]

/-- Claim C8 witness: two syntactically different but pointwise-equal
mappings give the same alert list. -/
theorem claim_C8_witness :
    check_signals (some 0.01) (fun _ => some 0.02) 0 =
      check_signals (some 0.01) (fun t => if t = t then some 0.02 else none) 0 :=
  claim_C8 (some 0.01) (fun _ => some 0.02)
    (fun t => if t = t then some 0.02 else none) 0 (fun t => by simp)

/-- Claim C10: every output of check_signals has at most three alerts and at
most one alert of each category, since each rule is checked once and appends
at most one signal. -/
theorem claim_C10 :
    ∀ (nq : Option ℚ) (m : String → Option ℚ) (sim : ℚ),
      (check_signals nq m sim).length ≤ 3
      ∧ (check_signals nq m sim).countP isUsShock ≤ 1
      ∧ (check_signals nq m sim).countP isArbitrage ≤ 1
      ∧ (check_signals nq m sim).countP isSentiment ≤ 1 := by
  intro nq m sim
  simp only [check_signals]
  split_ifs <;> simp [isUsShock, isArbitrage, isSentiment]

/-- Claim C4 as amended: whenever a history has fewer than two valid closes,
normalizeHistory returns a zero fractional return and the concrete sentinel
price 0 that the source stores as its no-data outcome, not an absent price;
this branch performs no division and the embedding is total, so no error
reaches the caller. -/
theorem claim_C4 :
    ∀ history : List (Option ℚ), (history.filterMap id).length < 2 →
      normalizeHistory history = (some 0, 0) := by
  intro history h
  simp only [normalizeHistory]
  rw [if_neg (by omega)]

/-- Claim C4 witness: a single-close history yields the zero return and the
no-data price. -/
theorem claim_C4_witness :
    (([some 5] : List (Option ℚ)).filterMap id).length < 2
      ∧ normalizeHistory [some 5] = (some 0, 0) :=
  ⟨by simp, claim_C4 [some 5] (by simp)⟩

/-- Claim C4 counterexample to the original claim: the history with the
single valid close 5 has fewer than two valid closes, so the spec prescribes
an absent latest price for it, yet the source produces the concrete price 0;
that 0 is a representable genuine price, not an absence marker, since the
two-close history 2 then 0 produces the very same price value through the
normal branch. -/
theorem claim_C4_counterexample :
    (([some 5] : List (Option ℚ)).filterMap id).length < 2
      ∧ spec_latest_price [some 5] = none
      ∧ (normalizeHistory [some 5]).2 = 0
      ∧ (normalizeHistory [some 2, some 0]).2 = 0 := by
  refine ⟨by simp, by simp [spec_latest_price], by simp [normalizeHistory], ?_⟩
  simp [normalizeHistory]

/-- Claim C3, code defect: for the history with valid closes 0 then 5 the
prior close is 0, and the source computes (5 - 0) / 0 on floats with no
guard, which produces a non-finite value (modeled as a none return) instead
of the guarded zero return the specification requires. -/
theorem claim_C3_code :
    normalizeHistory [some 0, some 5] = (none, 5)
      ∧ (normalizeHistory [some 0, some 5]).1 ≠ some 0 := by
  constructor
  · simp [normalizeHistory]
  · simp [normalizeHistory]
